import Mathlib

/-!
Verification of the io-fault/sys-daemons service supervisor.

A shallow embedding of the parts of `service.py` and `root.py` that the
specification talks about: the on-disk `Configuration` store (load/store of
actuation, invocation plan and abstract), the per-service state machine
(`Service` in `root.py`: invoke / again / xact_void and the retry budget),
and the HTTP control handlers (`Control` in `root.py`).

Conventions of the embedding:
* file contents and Python strings handled byte-wise are `List Char` (`Str`);
* the single-service directory is a finite map from the fixed set of paths
  that the code touches (`SPath`) to nodes (`FNode`);
* fallible operations return `Option`;
* Python `str.strip`/`str.lower` are `pyStrip`/`pyLower`.
-/

namespace Rootd

abbrev Str := List Char

/-- Python `str.isspace` characters relevant to `strip()` (ASCII). -/
def isPySpace (c : Char) : Bool :=
  c = ' ' || c = '\t' || c = '\n' || c = '\r' || c = '\x0b' || c = '\x0c'

/-- Python `str.strip()` over a character list. -/
def pyStrip (s : Str) : Str :=
  ((s.dropWhile isPySpace).reverse.dropWhile isPySpace).reverse

/-- ASCII lowercase of one character. -/
def lowerChar (c : Char) : Char :=
  if 'A' ≤ c && c ≤ 'Z' then Char.ofNat (c.toNat + 32) else c

/-- Python `str.lower()` over a character list (ASCII). -/
def pyLower (s : Str) : Str := s.map lowerChar

/-- The filesystem names used inside one service directory
(`service.py` touches exactly these). -/
inductive SPath where
  | root          -- the service directory itself
  | libexecDir    -- libexec/
  | ifDir         -- if/
  | actuationTxt  -- actuation.txt
  | invocationTxt -- if/invocation.txt
  | abstractTxt   -- abstract.txt
  | criticalLog   -- critical.log
  | pidFile       -- pid
deriving DecidableEq

/-- A filesystem node: a directory or a regular file with its data. -/
inductive FNode where
  | dir : FNode
  | file : Str → FNode
deriving DecidableEq

/-- A service directory: latest write wins (`fsGet` finds the first entry). -/
abbrev FS := List (SPath × FNode)

def fsGet (fs : FS) (p : SPath) : Option FNode :=
  match fs with
  | [] => none
  | (q, n) :: t => if q = p then some n else fsGet t p

def fsSet (fs : FS) (p : SPath) (n : FNode) : FS := (p, n) :: fs

/-- `Path.fs_type`: `'directory'`, `'data'` or `'void'`. -/
def fs_type (fs : FS) (p : SPath) : String :=
  match fsGet fs p with
  | some .dir => "directory"
  | some (.file _) => "data"
  | none => "void"

/-- `Path.fs_store`. -/
def fs_store (fs : FS) (p : SPath) (d : Str) : FS := fsSet fs p (.file d)

/-- `Path.fs_mkdir`. -/
def fs_mkdir (fs : FS) (p : SPath) : FS := fsSet fs p .dir

/-- `Path.fs_load`.  Modelled from the spec for the missing-file case:
`fault.system.files` is not part of this repository, and §4.1 of the spec
states that a missing `abstract.txt` is not an error for `load`; a read of a
missing file therefore yields empty data here. -/
def fs_load (fs : FS) (p : SPath) : Str :=
  match fsGet fs p with
  | some (.file d) => d
  | _ => []

/-- `service.Configuration`: the in-memory service configuration
(fields of `Configuration.__init__` other than route/identifier). -/
structure Configuration where
  executable : Option Str
  parameters : List Str
  environment : List (Str × Option Str)
  abstract : Option Str
  actuation : Str
deriving DecidableEq

/-- The field values assigned by `Configuration.__init__`. -/
def freshConfiguration : Configuration :=
  { executable := none, parameters := [], environment := [],
    abstract := none, actuation := "disabled".toList }

/-! ### The sx-plan codec

Modelled from the spec: `parse_sx_plan` and `serialize_sx_plan` live in
`fault.system.execution`, outside this repository.  §4.1/§6 of the spec fix
only that the plan file is a deterministic text encoding of
(environment pairs, executable, argv) satisfying the round-trip law, with any
concrete syntax permitted.  We use a length-prefixed chunk encoding. -/

/-- One chunk of text: a unary length prefix, a separator, then the text. -/
def encChunk (s : Str) : Str := List.replicate s.length '1' ++ ':' :: s

def decChunk (s : Str) : Option (Str × Str) :=
  let n := (s.takeWhile (fun c => c = '1')).length
  match s.drop n with
  | ':' :: r => if n ≤ r.length then some (r.take n, r.drop n) else none
  | _ => none

/-- An optional value: `-` encodes a null (unset) value. -/
def encValue : Option Str → Str
  | none => ['-']
  | some v => '=' :: encChunk v

def decValue : Str → Option (Option Str × Str)
  | '-' :: r => some (none, r)
  | '=' :: r =>
    match decChunk r with
    | some (v, r2) => some (some v, r2)
    | none => none
  | _ => none

/-- One environment entry: name chunk then optional value. -/
def encEntry (e : Str × Option Str) : Str := encChunk e.1 ++ encValue e.2

def decEntry (s : Str) : Option ((Str × Option Str) × Str) :=
  match decChunk s with
  | some (n, r) =>
    match decValue r with
    | some (v, r2) => some ((n, v), r2)
    | none => none
  | none => none

/-- A counted list of encoded items. -/
def encCounted (f : α → Str) (l : List α) : Str :=
  List.replicate l.length '1' ++ ';' :: (l.map f).flatten

def decCount (dec : Str → Option (α × Str)) : Nat → Str → Option (List α × Str)
  | 0, s => some ([], s)
  | n+1, s =>
    match dec s with
    | some (a, r) =>
      match decCount dec n r with
      | some (l, r2) => some (a :: l, r2)
      | none => none
    | none => none

def decCounted (dec : Str → Option (α × Str)) (s : Str) : Option (List α × Str) :=
  let n := (s.takeWhile (fun c => c = '1')).length
  match s.drop n with
  | ';' :: r => decCount dec n r
  | _ => none

def serialize_sx_plan (p : List (Str × Option Str) × Str × List Str) : Str :=
  encCounted encEntry p.1 ++ (encChunk p.2.1 ++ encCounted encChunk p.2.2)

def parse_sx_plan (s : Str) : Option (List (Str × Option Str) × Str × List Str) :=
  match decCounted decEntry s with
  | some (env, r1) =>
    match decChunk r1 with
    | some (exe, r2) =>
      match decCounted decChunk r2 with
      | some (ps, _) => some (env, exe, ps)
      | none => none
    | none => none
  | none => none

/-! ### Codec round trip -/

theorem takeWhile_replicate_one (n : Nat) (c : Char) (rest : List Char) (hc : ¬ c = '1') :
    List.takeWhile (fun x => x = '1') (List.replicate n '1' ++ c :: rest)
      = List.replicate n '1' := by
  induction n with
  | zero => simp [List.takeWhile, hc]
  | succ k ih => simp [List.replicate, List.takeWhile, ih]

theorem drop_replicate_one (n : Nat) (c : Char) (rest : List Char) :
    List.drop n (List.replicate n '1' ++ c :: rest) = c :: rest := by
  induction n with
  | zero => simp
  | succ k ih => simp [List.replicate, ih]

theorem decChunk_enc (s rest : Str) : decChunk (encChunk s ++ rest) = some (s, rest) := by
  unfold decChunk encChunk
  rw [List.append_assoc, List.cons_append]
  rw [takeWhile_replicate_one s.length ':' (s ++ rest) (by decide)]
  simp only [List.length_replicate]
  rw [drop_replicate_one s.length ':' (s ++ rest)]
  simp [List.take_left, List.drop_left]

theorem decValue_enc (v : Option Str) (rest : Str) :
    decValue (encValue v ++ rest) = some (v, rest) := by
  cases v with
  | none => simp [encValue, decValue]
  | some s => simp [encValue, decValue, decChunk_enc]

theorem decEntry_enc (e : Str × Option Str) (rest : Str) :
    decEntry (encEntry e ++ rest) = some (e, rest) := by
  unfold decEntry encEntry
  rw [List.append_assoc, decChunk_enc]
  simp [decValue_enc]

theorem decCount_enc (dec : Str → Option (α × Str)) (f : α → Str)
    (hdec : ∀ a rest, dec (f a ++ rest) = some (a, rest))
    (l : List α) (rest : Str) :
    decCount dec l.length ((l.map f).flatten ++ rest) = some (l, rest) := by
  induction l with
  | nil => simp [decCount]
  | cons a t ih =>
    simp only [List.map_cons, List.flatten_cons, List.length_cons, decCount, List.append_assoc,
      hdec a ((t.map f).flatten ++ rest), ih]

theorem decCounted_enc (dec : Str → Option (α × Str)) (f : α → Str)
    (hdec : ∀ a rest, dec (f a ++ rest) = some (a, rest))
    (l : List α) (rest : Str) :
    decCounted dec (encCounted f l ++ rest) = some (l, rest) := by
  unfold decCounted encCounted
  rw [List.append_assoc, List.cons_append]
  rw [takeWhile_replicate_one l.length ';' ((l.map f).flatten ++ rest) (by decide)]
  simp only [List.length_replicate]
  rw [drop_replicate_one l.length ';' ((l.map f).flatten ++ rest)]
  exact decCount_enc dec f hdec l rest

theorem parse_serialize_sx_plan (p : List (Str × Option Str) × Str × List Str) :
    parse_sx_plan (serialize_sx_plan p) = some p := by
  obtain ⟨env, exe, ps⟩ := p
  unfold parse_sx_plan serialize_sx_plan
  have h3 : decCounted decChunk (encCounted encChunk ps ++ []) = some (ps, []) :=
    decCounted_enc decChunk encChunk decChunk_enc ps []
  simp only [List.append_nil] at h3
  simp only [decCounted_enc decEntry encEntry decEntry_enc env
      (encChunk exe ++ encCounted encChunk ps),
    decChunk_enc exe (encCounted encChunk ps), h3]

theorem serialize_sx_plan_ne_nil (p : List (Str × Option Str) × Str × List Str) :
    serialize_sx_plan p ≠ [] := by
  obtain ⟨env, exe, ps⟩ := p
  simp [serialize_sx_plan, encCounted]

/-! ### `Configuration` store and load (`service.py`) -/

/-- `Configuration.prepare`: make the directory, `libexec/` and `if/`. -/
def Configuration.prepare (fs : FS) : FS :=
  fs_mkdir (fs_mkdir (fs_mkdir fs .root) .libexecDir) .ifDir

/-- `Configuration.store_invocation`: serialize
(`environment or []`, `executable or ''`, `parameters or []`)
into `if/invocation.txt`. -/
def store_invocation (c : Configuration) (fs : FS) : FS :=
  let env := c.environment
  let exe := c.executable.getD []
  let ps := c.parameters
  fs_store fs .invocationTxt (serialize_sx_plan (env, exe, ps))

/-- `Configuration.store_actuation`: lowercased token plus newline. -/
def store_actuation (c : Configuration) (fs : FS) : FS :=
  fs_store fs .actuationTxt (pyLower c.actuation ++ ['\n'])

/-- `Configuration.store_abstract` (only called when `abstract` is not null). -/
def store_abstract (c : Configuration) (fs : FS) : FS :=
  fs_store fs .abstractTxt (c.abstract.getD [])

/-- `Configuration.store`: invocation, actuation, and the abstract when set. -/
def Configuration.store (c : Configuration) (fs : FS) : FS :=
  let fs1 := store_invocation c fs
  let fs2 := store_actuation c fs1
  if c.abstract ≠ none then store_abstract c fs2 else fs2

/-- `Configuration.load_actuation`: read, strip and lowercase (the source
strips and lowercases the text once more on assignment). -/
def load_actuation (c : Configuration) (fs : FS) : Configuration :=
  let text := pyLower (pyStrip (fs_load fs .actuationTxt))
  { c with actuation := pyLower (pyStrip text) }

/-- `Configuration.load_invocation`: parse `if/invocation.txt` when non-empty;
`executable` becomes null when the parsed executable is the empty string.
A parse failure raises in the source, hence `none` here. -/
def load_invocation (c : Configuration) (fs : FS) : Option Configuration :=
  let data := fs_load fs .invocationTxt
  if data = [] then some c
  else
    match parse_sx_plan data with
    | some (env, exe, ps) =>
      some { c with executable := if exe = [] then none else some exe,
                    parameters := ps, environment := env }
    | none => none

/-- `Configuration.load_abstract`: stripped text, empty becoming null. -/
def load_abstract (c : Configuration) (fs : FS) : Configuration :=
  let t := pyStrip (fs_load fs .abstractTxt)
  { c with abstract := if t = [] then none else some t }

/-- `Configuration.load`: actuation, invocation, abstract, in source order. -/
def Configuration.load (c : Configuration) (fs : FS) : Option Configuration :=
  let c1 := load_actuation c fs
  match load_invocation c1 fs with
  | some c2 => some (load_abstract c2 fs)
  | none => none

/-! ### C1: store/load round trip -/

theorem actuation_text_roundtrip (a : Str)
    (h : a = "enabled".toList ∨ a = "disabled".toList) :
    pyLower (pyStrip (pyLower (pyStrip (pyLower a ++ ['\n'])))) = a := by
  rcases h with h | h <;> subst h <;> decide

/-- The configuration used to refute C1 as stated: its abstract is a single
space, which `load_abstract` strips to empty and maps to null. -/
def cexC1 : Configuration :=
  { executable := none, parameters := [], environment := [],
    abstract := some [' '], actuation := "disabled".toList }

/-- C1 (counterexample): the round trip does not restore a whitespace-only
`abstract`: storing `cexC1` and loading it back on a fresh `Configuration`
yields a null abstract, so the loaded configuration differs from `cexC1`
even though `cexC1` meets every constraint the claim lists (actuation is
`disabled`, the environment is empty, the executable is null). -/
theorem C1_counterexample :
    Configuration.load freshConfiguration (Configuration.store cexC1 []) ≠ some cexC1 := by
  decide

/-- C1 (amended): for every configuration satisfying the §3 constraints and
whose abstract is null or a non-empty string equal to its own strip,
storing it and loading on a fresh `Configuration` over the same route
(one holding no stale `abstract.txt`) restores every field. -/
theorem C1_roundtrip (c : Configuration) (fs : FS)
    (hact : c.actuation = "enabled".toList ∨ c.actuation = "disabled".toList)
    (henv : ∀ e ∈ c.environment, e.1 ≠ ([] : Str))
    (hexe : ∀ s, c.executable = some s → s ≠ ([] : Str))
    (habs : c.abstract = none ∨ ∃ a, c.abstract = some a ∧ a ≠ [] ∧ pyStrip a = a)
    (hfs : fsGet fs .abstractTxt = none) :
    Configuration.load freshConfiguration (Configuration.store c fs) = some c := by
  obtain ⟨ce, cp, cv, ca, cact⟩ := c
  simp only at hact hexe habs
  have hatr := actuation_text_roundtrip cact hact
  rcases habs with habs | ⟨a, habs, hane, hstrip⟩ <;> subst habs
  · cases ce with
    | none =>
      have hser := serialize_sx_plan_ne_nil (cv, [], cp)
      have hpar := parse_serialize_sx_plan (cv, [], cp)
      simp [Configuration.store, store_invocation, store_actuation, store_abstract,
        fs_store, fsSet, fs_load, fsGet, Configuration.load, load_actuation,
        load_invocation, load_abstract, freshConfiguration, hser, hpar, hatr, hfs,
        show pyStrip [] = [] from rfl]
    | some s =>
      have hs := hexe s rfl
      have hser := serialize_sx_plan_ne_nil (cv, s, cp)
      have hpar := parse_serialize_sx_plan (cv, s, cp)
      simp [Configuration.store, store_invocation, store_actuation, store_abstract,
        fs_store, fsSet, fs_load, fsGet, Configuration.load, load_actuation,
        load_invocation, load_abstract, freshConfiguration, hser, hpar, hatr, hfs,
        hs, show pyStrip [] = [] from rfl]
  · cases ce with
    | none =>
      have hser := serialize_sx_plan_ne_nil (cv, [], cp)
      have hpar := parse_serialize_sx_plan (cv, [], cp)
      simp [Configuration.store, store_invocation, store_actuation, store_abstract,
        fs_store, fsSet, fs_load, fsGet, Configuration.load, load_actuation,
        load_invocation, load_abstract, freshConfiguration, hser, hpar, hatr, hfs,
        hane, hstrip]
    | some s =>
      have hs := hexe s rfl
      have hser := serialize_sx_plan_ne_nil (cv, s, cp)
      have hpar := parse_serialize_sx_plan (cv, s, cp)
      simp [Configuration.store, store_invocation, store_actuation, store_abstract,
        fs_store, fsSet, fs_load, fsGet, Configuration.load, load_actuation,
        load_invocation, load_abstract, freshConfiguration, hser, hpar, hatr, hfs,
        hane, hstrip, hs]

/-- C1 witness: the round-trip theorem applied to the spec's S2 configuration
(environment `A=1`, `B` null; executable `/usr/bin/env`; argv `env`;
abstract `x`; actuation `enabled`) on an empty directory. -/
theorem C1_roundtrip_witness :
    Configuration.load freshConfiguration (Configuration.store
      { executable := some "/usr/bin/env".toList, parameters := ["env".toList],
        environment := [("A".toList, some "1".toList), ("B".toList, none)],
        abstract := some "x".toList, actuation := "enabled".toList } []) =
    some { executable := some "/usr/bin/env".toList, parameters := ["env".toList],
           environment := [("A".toList, some "1".toList), ("B".toList, none)],
           abstract := some "x".toList, actuation := "enabled".toList } :=
  C1_roundtrip _ [] (by decide) (by decide) (by decide)
    (Or.inr ⟨"x".toList, rfl, by decide, by decide⟩) rfl

/-! ### C10: the `actuates` projection -/

/-- `Configuration.actuates`: `_actuation_map.get(self.actuation, False)` for a
string-valued `actuation` (`_actuation_map` sends `'enabled'` to `True` and
`'disabled'` to `False`; any other string falls to the default `False`). -/
def Configuration.actuates (c : Configuration) : Bool :=
  if c.actuation = "enabled".toList then true
  else if c.actuation = "disabled".toList then false
  else false

/-- C10: `actuates` is true exactly when the in-memory actuation string is
`'enabled'`; and after `load_actuation` of any file content, any token other
than `'enabled'` (post strip/lowercase) yields `actuates = false` rather than
an error. -/
theorem C10_actuates (c : Configuration) (fs : FS) :
    (c.actuates = true ↔ c.actuation = "enabled".toList) ∧
    ((load_actuation c fs).actuation ≠ "enabled".toList →
      (load_actuation c fs).actuates = false) := by
  constructor
  · constructor
    · intro h
      by_contra hne
      unfold Configuration.actuates at h
      rw [if_neg hne] at h
      rcases Decidable.em (c.actuation = "disabled".toList) with hd | hd
      · rw [if_pos hd] at h; exact Bool.noConfusion h
      · rw [if_neg hd] at h; exact Bool.noConfusion h
    · intro h
      unfold Configuration.actuates
      rw [if_pos h]
  · intro h
    unfold Configuration.actuates
    rw [if_neg h]
    rcases Decidable.em ((load_actuation c fs).actuation = "disabled".toList) with hd | hd
    · rw [if_pos hd]
    · rw [if_neg hd]

/-- C10 witness: a corrupted `actuation.txt` (content `EnAbleZ`) loads without
error and projects to `actuates = false`; the `'enabled'` string projects to
`true`. -/
theorem C10_actuates_witness :
    (freshConfiguration.actuates = true ↔
      freshConfiguration.actuation = "enabled".toList) ∧
    (load_actuation freshConfiguration
        [(SPath.actuationTxt, FNode.file "EnAbleZ\n".toList)]).actuates = false := by
  refine ⟨(C10_actuates freshConfiguration []).1, ?_⟩
  exact (C10_actuates freshConfiguration
    [(SPath.actuationTxt, FNode.file "EnAbleZ\n".toList)]).2 (by decide)

/-! ### The `Service` machine of `root.py`

Timestamps are integers; `Measure.of(second=16)` is the integer 16 and
`lkt.measure(t)` is `t - lkt`. -/

def s_maximum_attempts : Nat := 8

def s_minimum_runtime : Int := 16

/-- `Service.s_was_running`: the duration from `s_last_known_time` to the last
exit event's timestamp reaches the minimum runtime; an empty buffer (the
indexing error the bare `except` swallows) gives `False`. -/
def s_was_running (lkt : Int) (events : List (Int × Int)) : Bool :=
  match events.getLast? with
  | none => false
  | some e => decide (s_minimum_runtime ≤ e.1 - lkt)

/-- The three ways `Service.s_again` can act. -/
inductive AgainAction where
  | invokeNow   -- `del self.s_exit_events[:]` then `self.s_invoke()`
  | giveUp      -- `s_inhibit_recovery = True; s_status = 'exits'`
  | deferRetry  -- `s_status = 'waiting'; scheduler.defer(s_retry_wait, s_invoke)`
deriving DecidableEq

/-- `Service.s_again` seen on the timed exit-event buffer: the chosen action
and the buffer it leaves behind. -/
def s_again_timed (lkt : Int) (events : List (Int × Int)) :
    AgainAction × List (Int × Int) :=
  if s_was_running lkt events then (AgainAction.invokeNow, [])
  else if s_maximum_attempts ≤ events.length then (AgainAction.giveUp, events)
  else (AgainAction.deferRetry, events)

/-! ### C3: `s_was_running` and the good-run reset -/

/-- C3: `s_was_running` is true exactly when the last exit event exists and
its timestamp is at least `s_minimum_runtime` past `s_last_known_time`; and
whenever it is true, `s_again` empties the buffer and invokes immediately
(no retry-wait deferral). -/
theorem C3_was_running (lkt : Int) (events : List (Int × Int)) :
    (s_was_running lkt events = true ↔
      ∃ t x, events.getLast? = some (t, x) ∧ s_minimum_runtime ≤ t - lkt) ∧
    (s_was_running lkt events = true →
      s_again_timed lkt events = (AgainAction.invokeNow, [])) := by
  constructor
  · unfold s_was_running
    cases hl : events.getLast? with
    | none => simp
    | some e => obtain ⟨t, x⟩ := e; simp
  · intro h
    unfold s_again_timed
    rw [if_pos h]

/-- C3 witness: a child invoked at time 0 that exits at time 20 counts as a
good run, and `s_again` then re-invokes at once on an emptied buffer. -/
theorem C3_was_running_witness :
    s_again_timed 0 [(20, 0)] = (AgainAction.invokeNow, []) :=
  (C3_was_running 0 [(20, 0)]).2 (by decide)

/-! ### C2: the retry budget -/

/-- The `Service` machine state that the recovery logic reads and writes.
`pending` records a deferred `s_invoke` sitting in the controller's
scheduler; `invocations` counts the `s_invoke` calls that launched a child. -/
structure MState where
  s_status : String
  s_exit_events : Nat
  s_inhibit_recovery : Option Bool
  pending : Bool
  invocations : Nat
deriving DecidableEq

/-- The state after `Service.__init__` (status `'terminated'`, empty buffer). -/
def initialMState : MState :=
  { s_status := "terminated", s_exit_events := 0, s_inhibit_recovery := none,
    pending := false, invocations := 0 }

/-- `Service.s_invoke`: does nothing when already `'executed'`, otherwise
launches the child and becomes `'executed'`. -/
def s_invoke (m : MState) : MState :=
  if m.s_status = "executed" then m
  else { m with s_status := "executed", invocations := m.invocations + 1 }

/-- `Service.s_again`; `wr` is the value `self.s_was_running()` returned. -/
def s_again (wr : Bool) (m : MState) : MState :=
  if wr then s_invoke { m with s_exit_events := 0 }
  else if s_maximum_attempts ≤ m.s_exit_events then
    { m with s_inhibit_recovery := some true, s_status := "exits" }
  else { m with s_status := "waiting", pending := true }

/-- `Service.xact_void` on a child exit while the supervisor itself is not
terminating: status drops to `'terminated'` (unless `'exception'`), the exit
event is appended, and recovery runs unless inhibited. `actuates` is
`self.s_config.actuates`. -/
def xact_void (actuates wr : Bool) (m : MState) : MState :=
  let m1 := { m with
    s_status := if m.s_status = "exception" then m.s_status else "terminated",
    s_exit_events := m.s_exit_events + 1 }
  if m1.s_inhibit_recovery ≠ some true then
    if actuates then s_again wr m1
    else if m1.s_inhibit_recovery = some false then
      s_again wr { m1 with s_inhibit_recovery := none }
    else m1
  else m1

/-- The scheduler events an enabled service machine receives without external
intervention: a child exit (`wr` being what `s_was_running` computes there)
or the deferred retry firing. -/
inductive MEvent where
  | childExit (wr : Bool)
  | timerFire
deriving DecidableEq

/-- One event against an enabled (`actuates = true`) machine; `none` when the
event cannot occur in that state (no child running / no deferred invoke). -/
def mstep (m : MState) : MEvent → Option MState
  | .childExit wr =>
    if m.s_status = "executed" then some (xact_void true wr m) else none
  | .timerFire =>
    if m.pending = true then some (s_invoke { m with pending := false }) else none

def runM (m : MState) : List MEvent → Option MState
  | [] => some m
  | e :: t =>
    match mstep m e with
    | some m2 => runM m2 t
    | none => none

/-- Inductive invariant for traces of an enabled machine whose child never
reaches the minimum runtime. -/
def MInv (m : MState) : Prop :=
  (m.s_inhibit_recovery = none ∨ m.s_inhibit_recovery = some true) ∧
  (m.s_inhibit_recovery = some true →
    m.s_status = "exits" ∧ m.pending = false ∧ m.s_exit_events = 8) ∧
  m.s_exit_events ≤ 8 ∧
  (m.s_exit_events = 8 → m.s_inhibit_recovery = some true) ∧
  (m.pending = true → m.invocations ≤ m.s_exit_events) ∧
  m.invocations ≤ m.s_exit_events + 1 ∧
  m.invocations ≤ 8 ∧
  (m.s_status = "executed" → m.pending = false)

theorem MInv_step (m m2 : MState) (e : MEvent)
    (hwr : ∀ b, e = MEvent.childExit b → b = false)
    (hinv : MInv m) (hstep : mstep m e = some m2) : MInv m2 := by
  obtain ⟨h1, h2, h3, h4, h5, h6, h7, h8⟩ := hinv
  cases e with
  | childExit wr =>
    have hw : wr = false := hwr wr rfl
    subst hw
    simp only [mstep] at hstep
    rcases Decidable.em (m.s_status = "executed") with hs | hs
    · rw [if_pos hs] at hstep
      have hnotex : ¬ m.s_status = "exception" := by rw [hs]; decide
      have hpend : m.pending = false := h8 hs
      have hinh : m.s_inhibit_recovery = none := by
        rcases h1 with h | h
        · exact h
        · exact absurd hs (by rw [(h2 h).1]; decide)
      have hne8 : m.s_exit_events ≠ 8 := fun h => by
        rw [h4 h] at hinh; exact Option.noConfusion hinh
      have hm2 : m2 = xact_void true false m := by
        injection hstep with h; exact h.symm
      subst hm2
      rcases Decidable.em (s_maximum_attempts ≤ m.s_exit_events + 1) with hle | hle
      · have hev : m.s_exit_events + 1 = 8 := by
          have hle8 : 8 ≤ m.s_exit_events + 1 := hle
          omega
        have hx : xact_void true false m =
            { s_status := "exits", s_exit_events := m.s_exit_events + 1,
              s_inhibit_recovery := some true, pending := m.pending,
              invocations := m.invocations } := by
          simp [xact_void, s_again, hinh, hnotex, hle]
        rw [hx]
        unfold MInv
        exact ⟨Or.inr rfl, fun _ => ⟨rfl, hpend, hev⟩,
          by show m.s_exit_events + 1 ≤ 8; omega, fun _ => rfl,
          fun _ => show m.invocations ≤ m.s_exit_events + 1 from h6,
          show m.invocations ≤ m.s_exit_events + 1 + 1 by omega,
          show m.invocations ≤ 8 by omega,
          fun h => absurd h (show ¬ ("exits" : String) = "executed" by decide)⟩
      · have hle8 : ¬ (8 ≤ m.s_exit_events + 1) := hle
        have hx : xact_void true false m =
            { s_status := "waiting", s_exit_events := m.s_exit_events + 1,
              s_inhibit_recovery := none, pending := true,
              invocations := m.invocations } := by
          simp [xact_void, s_again, hinh, hnotex, hle]
        rw [hx]
        unfold MInv
        exact ⟨Or.inl rfl, fun h => Option.noConfusion h,
          by show m.s_exit_events + 1 ≤ 8; omega,
          fun h => absurd h (show m.s_exit_events + 1 ≠ 8 by omega),
          fun _ => show m.invocations ≤ m.s_exit_events + 1 from h6,
          show m.invocations ≤ m.s_exit_events + 1 + 1 by omega,
          show m.invocations ≤ 8 by omega,
          fun h => absurd h (show ¬ ("waiting" : String) = "executed" by decide)⟩
    · rw [if_neg hs] at hstep; exact Option.noConfusion hstep
  | timerFire =>
    simp only [mstep] at hstep
    rcases Decidable.em (m.pending = true) with hp | hp
    · rw [if_pos hp] at hstep
      have hinvle : m.invocations ≤ m.s_exit_events := h5 hp
      have hinh : m.s_inhibit_recovery = none := by
        rcases h1 with h | h
        · exact h
        · rw [(h2 h).2.1] at hp; exact Bool.noConfusion hp
      have hne8 : m.s_exit_events ≠ 8 := fun h => by
        rw [h4 h] at hinh; exact Option.noConfusion hinh
      have hnex : ¬ m.s_status = "executed" := fun h => by
        rw [h8 h] at hp; exact Bool.noConfusion hp
      have hm2 : m2 = s_invoke { m with pending := false } := by
        injection hstep with h; exact h.symm
      subst hm2
      have hx : s_invoke { m with pending := false } =
          { s_status := "executed", s_exit_events := m.s_exit_events,
            s_inhibit_recovery := m.s_inhibit_recovery, pending := false,
            invocations := m.invocations + 1 } := by
        simp [s_invoke, hnex]
      rw [hx]
      unfold MInv
      exact ⟨Or.inl hinh, fun h => Option.noConfusion (hinh ▸ h),
        h3, fun h => Option.noConfusion (hinh ▸ h4 h),
        fun hpf => Bool.noConfusion hpf,
        show m.invocations + 1 ≤ m.s_exit_events + 1 by omega,
        show m.invocations + 1 ≤ 8 by omega, fun _ => rfl⟩
    · rw [if_neg hp] at hstep; exact Option.noConfusion hstep

theorem MInv_run (tr : List MEvent) (m m2 : MState)
    (hwr : ∀ b, MEvent.childExit b ∈ tr → b = false)
    (hinv : MInv m) (hrun : runM m tr = some m2) : MInv m2 := by
  induction tr generalizing m with
  | nil =>
    simp only [runM, Option.some.injEq] at hrun
    exact hrun ▸ hinv
  | cons e t ih =>
    simp only [runM] at hrun
    cases hs : mstep m e with
    | none => rw [hs] at hrun; exact Option.noConfusion hrun
    | some m1 =>
      rw [hs] at hrun
      have hstep := MInv_step m m1 e
        (fun b hb => hwr b (hb ▸ List.mem_cons_self e t)) hinv hs
      exact ih m1 (fun b hb => hwr b (List.mem_cons_of_mem e hb)) hstep hrun

/-- C2: starting from actuation (`s_invoke` on the fresh machine), along any
event trace in which the child never reaches the minimum runtime
(`s_was_running` is always false at exits), at most 8 invocations occur; and
once the buffer holds 8 exit events the machine is in `'exits'` with
`s_inhibit_recovery = True` and no further event can fire an `s_invoke`. -/
theorem C2_retry_bound (tr : List MEvent) (m2 : MState)
    (hwr : ∀ b, MEvent.childExit b ∈ tr → b = false)
    (hrun : runM (s_invoke initialMState) tr = some m2) :
    m2.invocations ≤ s_maximum_attempts ∧
    (m2.s_exit_events = s_maximum_attempts →
      m2.s_status = "exits" ∧ m2.s_inhibit_recovery = some true ∧
      ∀ e, mstep m2 e = none) := by
  have h0 : MInv (s_invoke initialMState) := by
    unfold MInv s_invoke initialMState
    refine ⟨by simp, by simp, ?_⟩; simp
  have hinv := MInv_run tr _ m2 hwr h0 hrun
  obtain ⟨h1, h2, h3, h4, h5, h6, h7, h8⟩ := hinv
  refine ⟨h7, fun hev => ?_⟩
  have hit := h4 hev
  obtain ⟨hs, hp, _⟩ := h2 hit
  refine ⟨hs, hit, fun e => ?_⟩
  cases e with
  | childExit wr => simp [mstep, hs]
  | timerFire => simp [mstep, hp]

/-- The state a crash-looping enabled service ends in: 8 exit events, 8
invocations, recovery inhibited. -/
def crashLoopFinal : MState :=
  { s_status := "exits", s_exit_events := 8, s_inhibit_recovery := some true,
    pending := false, invocations := 8 }

/-- The crash-loop trace: eight child exits below the minimum runtime
interleaved with the seven retry timers. -/
def crashLoopTrace : List MEvent :=
  [MEvent.childExit false, MEvent.timerFire, MEvent.childExit false, MEvent.timerFire,
   MEvent.childExit false, MEvent.timerFire, MEvent.childExit false, MEvent.timerFire,
   MEvent.childExit false, MEvent.timerFire, MEvent.childExit false, MEvent.timerFire,
   MEvent.childExit false, MEvent.timerFire, MEvent.childExit false]

/-- C2 witness: the explicit crash-loop trace ends in `'exits'` with an
inhibited, stuck machine after exactly 8 invocations. -/
theorem C2_retry_bound_witness :
    crashLoopFinal.invocations ≤ s_maximum_attempts ∧
    (crashLoopFinal.s_exit_events = s_maximum_attempts →
      crashLoopFinal.s_status = "exits" ∧
      crashLoopFinal.s_inhibit_recovery = some true ∧
      ∀ e, mstep crashLoopFinal e = none) :=
  C2_retry_bound crashLoopTrace crashLoopFinal (by decide) (by decide)

/-! ### Signals (`root.py` `Service.s_*` methods)

`Subprocess.sp_signal` delivers to the child process; `sp_signal_group`
delivers to the child's process group. -/

inductive Sig where
  | sigterm | sigint | sigkill | sighup | sigstop | sigcont
deriving DecidableEq

inductive SignalTgt where
  | process  -- sp_signal
  | group    -- sp_signal_group
deriving DecidableEq

/-- `Service.s_terminate`: `sp_signal(SIGTERM)`. -/
def s_terminate_signal : Sig × SignalTgt := (.sigterm, .process)

/-- `Service.s_interrupt`: `sp_signal(SIGINT)`. -/
def s_interrupt_signal : Sig × SignalTgt := (.sigint, .process)

/-- `Service.s_kill`: `sp_signal(SIGKILL)`. -/
def s_kill_signal : Sig × SignalTgt := (.sigkill, .process)

/-- `Service.s_suspend`: `sp_signal_group(SIGSTOP)`. -/
def s_suspend_signal : Sig × SignalTgt := (.sigstop, .group)

/-- `Service.s_continue`: `sp_signal_group(SIGCONT)`. -/
def s_continue_signal : Sig × SignalTgt := (.sigcont, .group)

/-- The methods defined on `Service` in `root.py` (the dispatch surface
available via `getattr`-style lookup on the machine). -/
def service_methods : List String :=
  ["structure", "actuate", "s_invoke", "s_was_running", "s_again", "s_update",
   "xact_void", "s_get_pid", "s_terminate", "s_interrupt", "s_kill",
   "s_suspend", "s_continue", "terminate"]

/-! ### C8: signal delivery targets -/

/-- C8 (counterexample): the claim says every control-operation signal goes to
the child's process group; but `s_terminate` (stop/terminate/restart,
SIGTERM), `s_interrupt` (SIGINT) and `s_kill` (SIGKILL) use `sp_signal`,
which targets the single child process. -/
theorem C8_counterexample :
    s_terminate_signal.2 ≠ SignalTgt.group ∧
    s_interrupt_signal.2 ≠ SignalTgt.group ∧
    s_kill_signal.2 ≠ SignalTgt.group := by
  decide

/-- C8 (amended): only SIGSTOP (sleep/suspend) and SIGCONT (release/continue)
are delivered to the child's process group; SIGTERM (stop/terminate/restart),
SIGINT (interrupt) and SIGKILL (kill) are delivered to the single child
process, and no `s_reload` method exists on the machine to deliver SIGHUP. -/
theorem C8_signal_targets :
    s_suspend_signal = (Sig.sigstop, SignalTgt.group) ∧
    s_continue_signal = (Sig.sigcont, SignalTgt.group) ∧
    s_terminate_signal = (Sig.sigterm, SignalTgt.process) ∧
    s_interrupt_signal = (Sig.sigint, SignalTgt.process) ∧
    s_kill_signal = (Sig.sigkill, SignalTgt.process) ∧
    service_methods.contains "s_reload" = false := by
  decide

/-! ### The HTTP control handlers (`Control` in `root.py`) -/

/-- The command set `Control.ctl_commands` accepted by the POST dispatcher. -/
def ctl_commands : List String :=
  ["status", "reload", "normalize", "disable", "enable",
   "restart", "stop", "start", "interrupt", "kill",
   "sleep", "hold", "release"]

/-- The `ctl_*` methods actually defined on `Control` in `root.py`; the POST
dispatcher resolves a command by looking up `'ctl_' + command` among them. -/
def control_methods : List String :=
  ["ctl_select", "ctl_update", "ctl_http_processor", "ctl_status",
   "ctl_suspend", "ctl_continue", "ctl_enable", "ctl_disable", "ctl_stop",
   "ctl_restart", "ctl_reload", "ctl_start", "ctl_normalize",
   "ctl_interrupt", "ctl_kill", "ctl_void"]

/-- The POST dispatch: `getattr(self, 'ctl_' + command)` succeeds only when
the method exists. -/
def ctl_dispatch_resolves (command : String) : Bool :=
  control_methods.contains ("ctl_" ++ command)

/-! ### C5: command dispatch -/

/-- C5 (code bug): `ctl_commands` admits `sleep`, `hold` and `release`, yet
`Control` defines no `ctl_sleep`, `ctl_hold` or `ctl_release` (only
`ctl_suspend`/`ctl_continue`), so the dispatcher's `getattr` raises instead
of producing the claimed 200 response; likewise `reload` resolves to
`ctl_reload`, but that handler calls `context.s_reload()` and `Service`
defines no `s_reload`, so a reload of a running service cannot deliver
SIGHUP. Every other listed command resolves to a defined handler. -/
theorem C5_dispatch_gap :
    ctl_commands.contains "sleep" = true ∧ ctl_dispatch_resolves "sleep" = false ∧
    ctl_commands.contains "hold" = true ∧ ctl_dispatch_resolves "hold" = false ∧
    ctl_commands.contains "release" = true ∧ ctl_dispatch_resolves "release" = false ∧
    ctl_commands.contains "reload" = true ∧ ctl_dispatch_resolves "reload" = true ∧
    service_methods.contains "s_reload" = false ∧
    (∀ c ∈ ctl_commands, c ≠ "sleep" → c ≠ "hold" → c ≠ "release" →
      ctl_dispatch_resolves c = true) := by
  refine ⟨rfl, rfl, rfl, rfl, rfl, rfl, rfl, rfl, rfl, ?_⟩
  decide

/-- C5 witness: the `status` command, one of the listed commands other than
`sleep`/`hold`/`release`, resolves to a defined handler. -/
theorem C5_dispatch_gap_witness : ctl_dispatch_resolves "status" = true :=
  C5_dispatch_gap.2.2.2.2.2.2.2.2.2 "status" (by decide)
    (by decide) (by decide) (by decide)

/-! ### C4: DELETE while running -/

/-- What the DELETE branch of `ctl_http_processor` reads and writes per
selected service machine. -/
structure SvcEntry where
  id : String
  s_status : String
  s_inhibit_recovery : Option Bool
deriving DecidableEq

/-- The DELETE branch of `Control.ctl_http_processor`: scan the selected
machines for one in state `'executed'` (the loop breaks there, mutating
nothing); only when none is executing are the machines inhibited, terminated
and their directories voided.  Result: status code, body, the machines as
left by the handler, and the ids whose directories were removed. -/
def delete_handler (selected : List SvcEntry) :
    Nat × String × List SvcEntry × List String :=
  if selected.any (fun s => s.s_status = "executed") then
    (409, "running services may not be removed", selected, [])
  else
    (200, "service daemon directories have been removed",
     selected.map (fun s => { s with s_inhibit_recovery := some true }),
     selected.map (fun s => s.id))

/-- C4: a DELETE selecting a machine in state `'executed'` answers 409
CONFLICT with the literal body and changes nothing — the machines (including
their `s_inhibit_recovery`) are returned untouched and no directory is
removed; a DELETE selecting no executing machine removes every selected
directory and answers 200. -/
theorem C4_delete (s : SvcEntry) (sel : List SvcEntry) :
    (s.s_status = "executed" →
      delete_handler (s :: sel) =
        (409, "running services may not be removed", s :: sel, [])) ∧
    ((∀ t ∈ s :: sel, t.s_status ≠ "executed") →
      (delete_handler (s :: sel)).1 = 200 ∧
      (delete_handler (s :: sel)).2.2.2 = (s :: sel).map (fun t => t.id)) := by
  constructor
  · intro h
    unfold delete_handler
    rw [if_pos]
    exact List.any_eq_true.mpr ⟨s, List.mem_cons_self s sel, by simp [h]⟩
  · intro h
    unfold delete_handler
    rw [if_neg]
    · exact ⟨rfl, rfl⟩
    · intro hc
      obtain ⟨t, ht, hts⟩ := List.any_eq_true.mp hc
      exact h t ht (by simpa using hts)

/-- C4 witness: deleting the running service `alpha` conflicts and mutates
nothing; deleting the terminated services `alpha'` and `beta` removes both. -/
theorem C4_delete_witness :
    (delete_handler [⟨"alpha", "executed", none⟩] =
      (409, "running services may not be removed",
       [⟨"alpha", "executed", none⟩], [])) ∧
    (delete_handler [⟨"alpha", "terminated", none⟩, ⟨"beta", "exits", some true⟩]).1 = 200 ∧
    (delete_handler [⟨"alpha", "terminated", none⟩, ⟨"beta", "exits", some true⟩]).2.2.2 =
      ["alpha", "beta"] := by
  refine ⟨(C4_delete ⟨"alpha", "executed", none⟩ []).1 rfl, ?_⟩
  have h := (C4_delete ⟨"alpha", "terminated", none⟩ [⟨"beta", "exits", some true⟩]).2
    (by decide)
  exact ⟨h.1, h.2⟩

/-! ### C7: the stop command -/

/-- The result of `Control.ctl_stop`: the inhibit flag it writes, the signal
it delivers (if any), and the reply string. -/
structure StopResult where
  inhibit : Option Bool
  signalled : Option (Sig × SignalTgt)
  message : String
deriving DecidableEq

/-- `Control.ctl_stop`: set `s_inhibit_recovery` from `config.actuates`
before the status check; signal SIGTERM via `s_terminate` only when the
machine is `'executed'`. -/
def ctl_stop (actuates : Bool) (s_status : String) : StopResult :=
  let inh : Option Bool := if actuates then some true else none
  if s_status ≠ "executed" then
    { inhibit := inh, signalled := none,
      message := "stop ineffective when not running" }
  else
    { inhibit := inh, signalled := some s_terminate_signal,
      message := "daemon signalled to terminate" }

/-- C7: `ctl_stop` writes `inhibit = True` iff actuation is enabled (else
null); when the machine is not `'executed'` it replies without signalling;
when it is, it delivers SIGTERM (via `s_terminate`, to the single process)
and replies `"daemon signalled to terminate"`; and a machine whose
`s_inhibit_recovery` is `True` performs no invoke and schedules no retry when
its child exits, even with actuation enabled. -/
theorem C7_stop (a : Bool) (st : String) (m : MState) :
    (ctl_stop a st).inhibit = (if a then some true else none) ∧
    (st ≠ "executed" →
      ctl_stop a st = { inhibit := if a then some true else none,
                        signalled := none,
                        message := "stop ineffective when not running" }) ∧
    (st = "executed" →
      ctl_stop a st = { inhibit := if a then some true else none,
                        signalled := some (Sig.sigterm, SignalTgt.process),
                        message := "daemon signalled to terminate" }) ∧
    (m.s_inhibit_recovery = some true → ∀ wr,
      (xact_void true wr m).invocations = m.invocations ∧
      (xact_void true wr m).pending = m.pending) := by
  refine ⟨?_, ?_, ?_, ?_⟩
  · unfold ctl_stop
    rcases Decidable.em (st ≠ "executed") with h | h
    · rw [if_pos h]
    · rw [if_neg h]
  · intro h; unfold ctl_stop; rw [if_pos h]
  · intro h
    unfold ctl_stop
    rw [if_neg (by simp [h])]
    rfl
  · intro h wr
    unfold xact_void
    rw [if_neg (by simp [h])]
    exact ⟨rfl, rfl⟩

/-- C7 witness: stopping an enabled, running service inhibits recovery and
signals SIGTERM; the inhibited machine stays down when the child exits. -/
theorem C7_stop_witness :
    ctl_stop true "executed" =
      { inhibit := some true,
        signalled := some (Sig.sigterm, SignalTgt.process),
        message := "daemon signalled to terminate" } ∧
    (xact_void true false
        { s_status := "executed", s_exit_events := 0,
          s_inhibit_recovery := some true, pending := false,
          invocations := 1 }).invocations = 1 := by
  have h := C7_stop true "executed"
    { s_status := "executed", s_exit_events := 0,
      s_inhibit_recovery := some true, pending := false, invocations := 1 }
  refine ⟨?_, (h.2.2.2 rfl false).1⟩
  have h3 := h.2.2.1 rfl
  simpa using h3

/-! ### C9: the child environment built by `Service.s_update`

A Python dict is an association list in which the most recent binding wins:
`dictGet` finds the first entry, and an update prepends. A present key bound
to `none` models a name mapped to Python `None`. -/

def dictGet (d : List (Str × Option Str)) (k : Str) : Option (Option Str) :=
  match d with
  | [] => none
  | (k2, v) :: t => if k2 = k then some v else dictGet t k

/-- `Service.s_update`'s environment construction:
`env = dict(os.environ.items())`, `env.update(service.environment)` (a plain
dict update — later pairs win, nothing is removed), then
`env['SERVICE_NAME'] = service.identifier`. `base` is the supervisor's
environment (string-valued), `planEnv` the plan's entries. -/
def s_update_env (base : List (Str × Str)) (planEnv : List (Str × Option Str))
    (identifier : Str) : List (Str × Option Str) :=
  let d0 : List (Str × Option Str) := base.map (fun e => (e.1, some e.2))
  let d1 := planEnv.foldl (fun d e => e :: d) d0
  ("SERVICE_NAME".toList, some identifier) :: d1

/-- C9 (counterexample): with supervisor environment `A=1` and plan entry
`(A, null)`, the claim demands `A` be removed from the child environment, but
the built mapping still carries `A` (bound to null): its lookup is not
`none`. -/
theorem C9_counterexample :
    dictGet (s_update_env [("A".toList, "1".toList)] [("A".toList, none)]
      "svc".toList) "A".toList ≠ none := by
  decide

/-- The merge the code actually performs, written as a lookup: SERVICE_NAME
wins, then the plan's last binding for the name — a null value staying
present as null, not unsetting — then the supervisor's environment. -/
def spec_merged_env (base : List (Str × Str)) (planEnv : List (Str × Option Str))
    (identifier k : Str) : Option (Option Str) :=
  if k = "SERVICE_NAME".toList then some (some identifier)
  else
    match planEnv.reverse.find? (fun e => e.1 = k) with
    | some e => some e.2
    | none => (base.find? (fun e => e.1 = k)).map (fun e => some e.2)

theorem dictGet_cons (k2 : Str) (v : Option Str) (t : List (Str × Option Str))
    (k : Str) :
    dictGet ((k2, v) :: t) k = if k2 = k then some v else dictGet t k := rfl

theorem dictGet_append (xs ys : List (Str × Option Str)) (k : Str) :
    dictGet (xs ++ ys) k =
      match dictGet xs k with
      | some v => some v
      | none => dictGet ys k := by
  induction xs with
  | nil => simp [dictGet]
  | cons e t ih =>
    obtain ⟨k2, v⟩ := e
    rcases Decidable.em (k2 = k) with h | h
    · simp [dictGet, h]
    · simp [dictGet, h, ih]

theorem dictGet_eq_find (xs : List (Str × Option Str)) (k : Str) :
    dictGet xs k = (xs.find? (fun e => e.1 = k)).map (fun e => e.2) := by
  induction xs with
  | nil => simp [dictGet]
  | cons e t ih =>
    obtain ⟨k2, v⟩ := e
    rcases Decidable.em (k2 = k) with h | h
    · simp [dictGet, h, List.find?]
    · simp [dictGet, h, List.find?, ih]

theorem foldl_cons_reverse (l : List (Str × Option Str))
    (d : List (Str × Option Str)) :
    l.foldl (fun d e => e :: d) d = l.reverse ++ d := by
  induction l generalizing d with
  | nil => simp
  | cons e t ih => simp [List.foldl_cons, ih]

/-- C9 (amended): the environment mapping handed to `KInvocation` equals the
supervisor's environment overlaid with the plan's entries — an entry whose
value is null leaving the name present and bound to null rather than removing
it — and then `SERVICE_NAME` bound to the service identifier. -/
theorem C9_env_merge (base : List (Str × Str)) (planEnv : List (Str × Option Str))
    (identifier k : Str) :
    dictGet (s_update_env base planEnv identifier) k =
      spec_merged_env base planEnv identifier k := by
  unfold s_update_env spec_merged_env
  rcases Decidable.em (k = "SERVICE_NAME".toList) with h | h
  · simp [dictGet, h]
  · have hne : ¬ ("SERVICE_NAME".toList = k) := fun hc => h hc.symm
    show dictGet (("SERVICE_NAME".toList, some identifier) ::
      planEnv.foldl (fun d e => e :: d) (base.map (fun e => (e.1, some e.2)))) k = _
    rw [dictGet_cons, if_neg hne]
    rw [foldl_cons_reverse, dictGet_append, dictGet_eq_find, dictGet_eq_find]
    rw [if_neg h]
    cases hf : planEnv.reverse.find? (fun e => e.1 = k) with
    | none =>
      simp only [hf, Option.map_none, List.find?_map, Option.map_map]
      rfl
    | some e => simp [hf]

/-! ### C6: service creation through `Control.ctl_update` -/

/-- A JSON update delta: the recognized configuration fields it may carry
(`some` meaning the key is present in the mapping). -/
structure Delta where
  executable : Option (Option Str)
  parameters : Option (List Str)
  environment : Option (List (Str × Option Str))
  abstract : Option (Option Str)
  actuation : Option Str
deriving DecidableEq

def emptyDelta : Delta :=
  { executable := none, parameters := none, environment := none,
    abstract := none, actuation := none }

/-- `Configuration.update`: overwrite exactly the fields present in the
mapping, no merge logic. -/
def Configuration.update (c : Configuration) (d : Delta) : Configuration :=
  let c1 := match d.executable with
    | some v => { c with executable := v }
    | none => c
  let c2 := match d.parameters with
    | some v => { c1 with parameters := v }
    | none => c1
  let c3 := match d.environment with
    | some v => { c2 with environment := v }
    | none => c2
  let c4 := match d.abstract with
    | some v => { c3 with abstract := v }
    | none => c3
  match d.actuation with
  | some v => { c4 with actuation := v }
  | none => c4

/-- The externally visible actions `ctl_update` takes, in order. -/
inductive CtlAction where
  | prepare          -- config.prepare()
  | dispatch         -- rs.r_dispatch(Service(config))
  | applyUpdate      -- config.update(delta)
  | storeConfig      -- config.store()
  | reply (code : Nat)
deriving DecidableEq

/-- `Control.ctl_update` after a successfully parsed JSON body, for a service
id with no registered machine (`registered = none` carries that case; `some c`
is the already-registered case and reuses that machine's configuration).
`routeExists` is `config.route.exists()`. Returns the action trace, the
resulting directory and the resulting configuration. -/
def ctl_update (registered : Option Configuration) (routeExists : Bool)
    (d : Delta) (fs : FS) : List CtlAction × FS × Configuration :=
  match registered with
  | none =>
    let c0 := freshConfiguration
    let created := routeExists = false
    let fs1 := if created then Configuration.prepare fs else fs
    let preActs := if created then [CtlAction.prepare] else []
    let c1 := c0.update d
    let fs2 := Configuration.store c1 fs1
    (preActs ++ [CtlAction.dispatch, CtlAction.applyUpdate, CtlAction.storeConfig,
       CtlAction.reply (if created then 201 else 200)], fs2, c1)
  | some c =>
    let c1 := c.update d
    ([CtlAction.applyUpdate, CtlAction.storeConfig, CtlAction.reply 200],
     Configuration.store c1 fs, c1)

/-- `Configuration.isconsistent`: directory, `if/` directory, and
`critical.log`, `actuation.txt`, `if/invocation.txt` all regular files. -/
def isconsistent (fs : FS) : Bool :=
  fs_type fs .root = "directory" &&
  fs_type fs .ifDir = "directory" &&
  fs_type fs .criticalLog = "data" &&
  fs_type fs .actuationTxt = "data" &&
  fs_type fs .invocationTxt = "data"

/-- C6 (counterexample): creating a service over HTTP with an empty delta on
a fresh route neither follows the claimed order (the machine is dispatched
before the update and store, not after) nor leaves a consistent directory —
`ctl_update` never writes `critical.log` (only `Configuration.create`, which
it does not call, does), so `isconsistent` is false after creation. -/
theorem C6_counterexample :
    (ctl_update none false emptyDelta []).1 ≠
      [CtlAction.prepare, CtlAction.applyUpdate, CtlAction.storeConfig,
       CtlAction.dispatch, CtlAction.reply 201] ∧
    isconsistent (ctl_update none false emptyDelta []).2.1 = false := by
  decide

/-- C6 (amended): a POST carrying a JSON body for an unregistered id with no
directory yet runs (a) prepare, (d) dispatch the machine, (b) apply the
update delta, (c) store, (e) reply 201 CREATED — dispatch precedes update and
store; afterwards `actuation.txt` and `if/invocation.txt` exist as regular
files inside the directory, but `critical.log` does not (full §3 consistency
only arises once the first invocation creates it), and the stored actuation
is `'disabled'` whenever the delta does not set it. -/
theorem C6_create (d : Delta) (fs : FS)
    (hact : d.actuation = none)
    (hlog : fsGet fs .criticalLog = none) :
    (ctl_update none false d fs).1 =
      [CtlAction.prepare, CtlAction.dispatch, CtlAction.applyUpdate,
       CtlAction.storeConfig, CtlAction.reply 201] ∧
    fs_type (ctl_update none false d fs).2.1 .actuationTxt = "data" ∧
    fs_type (ctl_update none false d fs).2.1 .invocationTxt = "data" ∧
    fs_type (ctl_update none false d fs).2.1 .criticalLog = "void" ∧
    fs_type (ctl_update none false d fs).2.1 .root = "directory" ∧
    (ctl_update none false d fs).2.2.actuation = "disabled".toList := by
  obtain ⟨de, dp, dv, da, dact⟩ := d
  simp only at hact
  subst hact
  rcases da with _ | (_ | s) <;> rcases de with _ | e <;> rcases dp with _ | p <;>
    rcases dv with _ | v <;>
    simp [ctl_update, Configuration.store, Configuration.update, store_invocation,
      store_actuation, store_abstract, freshConfiguration, Configuration.prepare,
      fs_store, fsSet, fs_mkdir, fs_type, fsGet, hlog]

/-- C6 witness: creating with the delta that only sets the executable
produces the amended order, the two configuration files, no `critical.log`,
and a disabled actuation. -/
theorem C6_create_witness :
    (ctl_update none false
      { executable := some (some "/bin/sleep".toList), parameters := none,
        environment := none, abstract := none, actuation := none } []).1 =
      [CtlAction.prepare, CtlAction.dispatch, CtlAction.applyUpdate,
       CtlAction.storeConfig, CtlAction.reply 201] ∧
    fs_type (ctl_update none false
      { executable := some (some "/bin/sleep".toList), parameters := none,
        environment := none, abstract := none, actuation := none } []).2.1
      .criticalLog = "void" ∧
    (ctl_update none false
      { executable := some (some "/bin/sleep".toList), parameters := none,
        environment := none, abstract := none, actuation := none } []).2.2.actuation =
      "disabled".toList := by
  have h := C6_create
    { executable := some (some "/bin/sleep".toList), parameters := none,
      environment := none, abstract := none, actuation := none } [] rfl rfl
  exact ⟨h.1, h.2.2.2.1, h.2.2.2.2.2⟩

end Rootd
